import Mathlib

/-!
Verification of the UAV weight and center-of-gravity analyzer
(`uav_cg_web_app.py`).

The source is a single Streamlit script.  Its computational core is:
  * four structural weight estimators (`calculate_wing_weight`,
    `calculate_fuselage_weight`, `calculate_horizontal_tail_weight`,
    `calculate_vertical_tail_weight`) reading a configuration of sidebar
    parameters;
  * a mutable component list (name, weight in grams, x/y/z position in
    metres, derived weight in kg) with operations to initialize it, add a
    component, edit a component's position/weight, remove a component, and
    overwrite the four structural records' weights
    (`update_component_weights`);
  * `calculate_CG`, the weighted-centroid reduction over the list.

The list operations and `calculate_CG` involve only field arithmetic, so
they are embedded over `ℚ` (exact, decidable); the structural estimators
use `cos` and real exponents, so they are embedded over `ℝ`.
Python raises `ZeroDivisionError` when a float division has a zero
denominator, so `calculate_CG` is embedded as an `Except` value.
-/

namespace UAV

/-- A component record, as stored in `st.session_state.components`:
name, weight in grams, x/y/z position in metres, and the derived
weight in kilograms. -/
structure Component (α : Type) where
  name : String
  weight : α
  x : α
  y : α
  z : α
  weight_kg : α
deriving DecidableEq, Repr

/-- The default component list the app installs into
`st.session_state.components` on first run (lines 85–96 of the source). -/
def init_components : List (Component ℚ) :=
  [⟨"Camera", 125, 0.2, 0, 0.1, 0.125⟩,
   ⟨"LiDAR", 50, 0.3, 0, 0.2, 0.050⟩,
   ⟨"GPS", 76, 0.4, 0, 0.3, 0.076⟩,
   ⟨"Comms", 50, 0.5, 0, 0.4, 0.050⟩,
   ⟨"Battery", 559, 0.7, 0, 0.5, 0.559⟩,
   ⟨"Wing", 0, 0.5, 0, 0.5, 0⟩,
   ⟨"Fuselage", 0, 0.5, 0, 0, 0⟩,
   ⟨"Horizontal Tail", 0, 0.5, 0, 0, 0⟩,
   ⟨"Vertical Tail", 0, 0.5, 0, 0, 0⟩]

/-- `calculate_CG(components)` (source lines 194–199): total weight is the
sum of `weight_kg`; each CG axis is the weight-weighted sum of that axis
divided by the total.  Python float division raises `ZeroDivisionError`
when the denominator is zero, hence the `Except`. -/
def calculate_CG (components : List (Component ℚ)) :
    Except String (ℚ × ℚ × ℚ × ℚ) :=
  let W_total := (components.map (fun c => c.weight_kg)).sum
  if W_total = 0 then Except.error "ZeroDivisionError"
  else
    Except.ok (W_total,
      (components.map (fun c => c.x * c.weight_kg)).sum / W_total,
      (components.map (fun c => c.y * c.weight_kg)).sum / W_total,
      (components.map (fun c => c.z * c.weight_kg)).sum / W_total)

/-- `add_component` (source lines 174–191): unconditionally appends a new
record with the entered name, weight and position, `weight_kg` derived as
`weight / 1000`.  There is no duplicate-name check in the source. -/
def add_component (components : List (Component ℚ)) (name : String)
    (weight x y z : ℚ) : List (Component ℚ) :=
  components ++ [⟨name, weight, x, y, z, weight / 1000⟩]

/-- The loop body of `adjust_component_positions_and_weights`
(source lines 158–171) on a single component: the position fields and the
gram weight are replaced by the edited values and `weight_kg` is recomputed
as `weight / 1000`. -/
def adjust_component (comp : Component ℚ) (nx ny nz nweight : ℚ) :
    Component ℚ :=
  { comp with x := nx, y := ny, z := nz, weight := nweight,
              weight_kg := nweight / 1000 }

/-- The removal path of `adjust_component_positions_and_weights`
(source line 169): `components.pop(i)` removes the record at index `i`. -/
def remove_at (components : List (Component ℚ)) (i : ℕ) :
    List (Component ℚ) :=
  components.eraseIdx i

/-- Pressing the Remove button on the first row whose name is `n`:
`pop` at the index of the first record matching `n`. -/
def remove_component (components : List (Component ℚ)) (n : String) :
    List (Component ℚ) :=
  remove_at components (components.findIdx (fun c => c.name == n))

/-- The sidebar parameters read by the four structural weight estimators
(source lines 14–49).  Each is a free real-valued input. -/
structure Config where
  rho_mat : ℝ
  n_ult : ℝ
  wing_area : ℝ
  wing_AR : ℝ
  wing_chord : ℝ
  t_c_max : ℝ
  Lambda_0_25 : ℝ
  lambda_ratio : ℝ
  K_rho : ℝ
  fuselage_length : ℝ
  fuselage_diameter : ℝ
  K_inlet : ℝ
  ht_area : ℝ
  ht_AR : ℝ
  ht_chord : ℝ
  ht_t_c_max : ℝ
  ht_Lambda_0_25 : ℝ
  ht_lambda_ratio : ℝ
  vt_area : ℝ
  vt_AR : ℝ
  vt_chord : ℝ
  vt_t_c_max : ℝ
  vt_Lambda_0_25 : ℝ
  vt_lambda_ratio : ℝ
  V_v : ℝ
  C_T : ℝ
  C_V : ℝ

/-- `np.radians`: degrees-to-radians conversion. -/
noncomputable def radians (deg : ℝ) : ℝ :=
  deg * (Real.pi / 180)

/-- The gravity constant `g = 9.81` (source line 53). -/
noncomputable def g : ℝ := 9.81

/-- `calculate_wing_weight` (source lines 55–60). -/
noncomputable def calculate_wing_weight (cfg : Config) : ℝ :=
  cfg.wing_area * cfg.wing_chord * cfg.t_c_max * cfg.rho_mat * cfg.K_rho *
    ((cfg.wing_AR * cfg.n_ult) / Real.cos (radians cfg.Lambda_0_25)) ^ (0.6 : ℝ) *
    cfg.lambda_ratio ^ (0.04 : ℝ) * g

/-- `calculate_fuselage_weight` (source lines 62–66). -/
noncomputable def calculate_fuselage_weight (cfg : Config) : ℝ :=
  cfg.fuselage_length * cfg.fuselage_diameter ^ (2 : ℕ) * cfg.rho_mat * cfg.K_rho *
    cfg.n_ult ^ (0.25 : ℝ) * cfg.K_inlet * g

/-- `calculate_horizontal_tail_weight` (source lines 69–75); the source
parenthesizes the last four factors into one group, which is recorded
verbatim here. -/
noncomputable def calculate_horizontal_tail_weight (cfg : Config) : ℝ :=
  cfg.ht_area * cfg.ht_chord * cfg.ht_t_c_max * cfg.rho_mat * cfg.K_rho *
    ((cfg.ht_AR / Real.cos (radians cfg.ht_Lambda_0_25)) ^ (0.6 : ℝ) *
      cfg.ht_lambda_ratio ^ (0.04 : ℝ) * g)

/-- `calculate_vertical_tail_weight` (source lines 77–83); the source
parenthesizes the last five factors into one group, which is recorded
verbatim here. -/
noncomputable def calculate_vertical_tail_weight (cfg : Config) : ℝ :=
  cfg.vt_area * cfg.vt_chord * cfg.vt_t_c_max * cfg.rho_mat * cfg.K_rho *
    ((cfg.vt_AR / Real.cos (radians cfg.vt_Lambda_0_25)) ^ (0.6 : ℝ) *
      cfg.vt_lambda_ratio ^ (0.04 : ℝ) * cfg.V_v ^ (0.2 : ℝ) *
      (cfg.C_T / cfg.C_V) ^ (0.4 : ℝ) * g)

/-- `update_component_weights` (source lines 99–119): each record named
Wing, Fuselage, Horizontal Tail or Vertical Tail gets its gram weight set
to the corresponding estimate times 1000 and its `weight_kg` set to the
estimate; every other record is untouched. -/
noncomputable def update_component_weights (cfg : Config)
    (components : List (Component ℝ)) : List (Component ℝ) :=
  components.map (fun comp =>
    if comp.name = "Wing" then
      { comp with weight := calculate_wing_weight cfg * 1000,
                  weight_kg := calculate_wing_weight cfg }
    else if comp.name = "Fuselage" then
      { comp with weight := calculate_fuselage_weight cfg * 1000,
                  weight_kg := calculate_fuselage_weight cfg }
    else if comp.name = "Horizontal Tail" then
      { comp with weight := calculate_horizontal_tail_weight cfg * 1000,
                  weight_kg := calculate_horizontal_tail_weight cfg }
    else if comp.name = "Vertical Tail" then
      { comp with weight := calculate_vertical_tail_weight cfg * 1000,
                  weight_kg := calculate_vertical_tail_weight cfg }
    else comp)

/-- The sidebar's default parameter values (source lines 14–49), which are
exactly the spec's formula scenario for the wing. -/
noncomputable def defaultConfig : Config where
  rho_mat := 2700
  n_ult := 3.8
  wing_area := 0.5
  wing_AR := 6
  wing_chord := 0.5
  t_c_max := 0.12
  Lambda_0_25 := 0
  lambda_ratio := 1
  K_rho := 1
  fuselage_length := 1
  fuselage_diameter := 0.2
  K_inlet := 1
  ht_area := 0.1
  ht_AR := 4
  ht_chord := 0.1
  ht_t_c_max := 0.12
  ht_Lambda_0_25 := 0
  ht_lambda_ratio := 1
  vt_area := 0.05
  vt_AR := 3
  vt_chord := 0.05
  vt_t_c_max := 0.12
  vt_Lambda_0_25 := 0
  vt_lambda_ratio := 1
  V_v := 0.2
  C_T := 1
  C_V := 1

end UAV

namespace UAV

/-- C1: `calculate_CG` returns the sum of the `weight_kg` fields as the
total weight, and for each axis the `weight_kg`-weighted sum of that
axis's positions divided by the total weight, whenever the total weight is
nonzero (a zero total instead raises, see `calculate_CG_zero_weight`). -/
theorem calculate_CG_spec (components : List (Component ℚ))
    (h : (components.map (fun c => c.weight_kg)).sum ≠ 0) :
    calculate_CG components = Except.ok
      ((components.map (fun c => c.weight_kg)).sum,
       (components.map (fun c => c.x * c.weight_kg)).sum /
         (components.map (fun c => c.weight_kg)).sum,
       (components.map (fun c => c.y * c.weight_kg)).sum /
         (components.map (fun c => c.weight_kg)).sum,
       (components.map (fun c => c.z * c.weight_kg)).sum /
         (components.map (fun c => c.weight_kg)).sum) := by
  simp only [calculate_CG, if_neg h]

/-- Witness for C1, the spec's concrete scenario: Battery (559 g at
(0.7, 0, 0.5)) and Camera (125 g at (0.2, 0, 0.1)) give total weight
0.684 kg and CG ((0.559·0.7 + 0.125·0.2)/0.684, 0,
(0.559·0.5 + 0.125·0.1)/0.684). -/
theorem calculate_CG_spec_witness :
    calculate_CG [⟨"Battery", 559, 0.7, 0, 0.5, 0.559⟩,
                  ⟨"Camera", 125, 0.2, 0, 0.1, 0.125⟩] =
      Except.ok ((0.684 : ℚ),
        (0.559 * 0.7 + 0.125 * 0.2) / 0.684,
        0,
        (0.559 * 0.5 + 0.125 * 0.1) / 0.684) := by
  rw [calculate_CG_spec _ (by norm_num)]
  norm_num

/-- C2: when every component's `weight_kg` is zero, the total weight is
zero and `calculate_CG` raises `ZeroDivisionError` instead of returning a
numeric result. -/
theorem calculate_CG_zero_weight (components : List (Component ℚ))
    (h : ∀ c ∈ components, c.weight_kg = 0) :
    calculate_CG components = Except.error "ZeroDivisionError" := by
  have hsum : (components.map (fun c => c.weight_kg)).sum = 0 := by
    apply List.sum_eq_zero
    intro x hx
    obtain ⟨c, hc, rfl⟩ := List.mem_map.mp hx
    exact h c hc
  simp [calculate_CG, hsum]

/-- Witness for C2: a list of two zero-weight components makes
`calculate_CG` fail with `ZeroDivisionError`. -/
theorem calculate_CG_zero_weight_witness :
    calculate_CG [⟨"Wing", 0, 0.5, 0, 0.5, 0⟩,
                  ⟨"Fuselage", 0, 0.5, 0, 0, 0⟩] =
      Except.error "ZeroDivisionError" :=
  calculate_CG_zero_weight _ (by simp)

/-- C3: the wing weight estimator computes exactly
`S · MAC · (t/c)_max · ρ · K_ρ · ((AR·n_ult)/cos(Λ_0.25 in radians))^0.6
· λ^0.04 · 9.81`, and on the sidebar defaults (S=0.5, MAC=0.5, t/c=0.12,
ρ=2700, K_ρ=1, AR=6, n_ult=3.8, Λ=0°, λ=1) it evaluates to
`0.5·0.5·0.12·2700·1·(6·3.8)^0.6·1·9.81`. -/
theorem calculate_wing_weight_spec :
    (∀ cfg : Config, calculate_wing_weight cfg =
      cfg.wing_area * cfg.wing_chord * cfg.t_c_max * cfg.rho_mat * cfg.K_rho *
        ((cfg.wing_AR * cfg.n_ult) / Real.cos (cfg.Lambda_0_25 * (Real.pi / 180))) ^ (0.6 : ℝ) *
        cfg.lambda_ratio ^ (0.04 : ℝ) * 9.81) ∧
    calculate_wing_weight defaultConfig =
      0.5 * 0.5 * 0.12 * 2700 * 1 * ((6 * 3.8 : ℝ) ^ (0.6 : ℝ)) * 1 * 9.81 := by
  constructor
  · intro cfg
    simp only [calculate_wing_weight, radians, g]
  · simp only [calculate_wing_weight, radians, g, defaultConfig, zero_mul,
      Real.cos_zero, div_one, Real.one_rpow]

/-- C4: the vertical tail weight estimator computes exactly
`S_VT · MAC_VT · (t/c)_max,VT · ρ · K_ρ · (AR_VT/cos(Λ_0.25,VT in
radians))^0.6 · λ_VT^0.04 · V_v^0.2 · (C_T/C_V)^0.4 · 9.81`; the gravity
factor is inside the source's extra parenthesis group but by associativity
the product is the same. -/
theorem calculate_vertical_tail_weight_spec (cfg : Config) :
    calculate_vertical_tail_weight cfg =
      cfg.vt_area * cfg.vt_chord * cfg.vt_t_c_max * cfg.rho_mat * cfg.K_rho *
        (cfg.vt_AR / Real.cos (cfg.vt_Lambda_0_25 * (Real.pi / 180))) ^ (0.6 : ℝ) *
        cfg.vt_lambda_ratio ^ (0.04 : ℝ) * cfg.V_v ^ (0.2 : ℝ) *
        (cfg.C_T / cfg.C_V) ^ (0.4 : ℝ) * 9.81 := by
  simp only [calculate_vertical_tail_weight, radians, g]
  ring

/-- C7: `update_component_weights` keeps the list's length and order,
keeps every record's name and position, overwrites the weight fields of
the records named Wing, Fuselage, Horizontal Tail and Vertical Tail with
the corresponding estimator outputs, leaves every other record entirely
unchanged, and treats the absence of any structural name as a no-op
rather than an error. -/
theorem update_component_weights_frame (cfg : Config)
    (components : List (Component ℝ)) :
    (update_component_weights cfg components).length = components.length ∧
    (∀ (i : ℕ) (c c₂ : Component ℝ),
      components[i]? = some c →
      (update_component_weights cfg components)[i]? = some c₂ →
      (c₂.name = c.name ∧ c₂.x = c.x ∧ c₂.y = c.y ∧ c₂.z = c.z) ∧
      (c.name = "Wing" → c₂.weight = calculate_wing_weight cfg * 1000 ∧
        c₂.weight_kg = calculate_wing_weight cfg) ∧
      (c.name = "Fuselage" → c₂.weight = calculate_fuselage_weight cfg * 1000 ∧
        c₂.weight_kg = calculate_fuselage_weight cfg) ∧
      (c.name = "Horizontal Tail" →
        c₂.weight = calculate_horizontal_tail_weight cfg * 1000 ∧
        c₂.weight_kg = calculate_horizontal_tail_weight cfg) ∧
      (c.name = "Vertical Tail" →
        c₂.weight = calculate_vertical_tail_weight cfg * 1000 ∧
        c₂.weight_kg = calculate_vertical_tail_weight cfg) ∧
      (c.name ≠ "Wing" → c.name ≠ "Fuselage" → c.name ≠ "Horizontal Tail" →
        c.name ≠ "Vertical Tail" → c₂ = c)) ∧
    ((∀ c ∈ components, c.name ≠ "Wing" ∧ c.name ≠ "Fuselage" ∧
        c.name ≠ "Horizontal Tail" ∧ c.name ≠ "Vertical Tail") →
      update_component_weights cfg components = components) := by
  refine ⟨by simp [update_component_weights], ?_, ?_⟩
  · intro i c c₂ h1 h2
    simp only [update_component_weights, List.getElem?_map, h1,
      Option.map_some'] at h2
    obtain rfl := (Option.some_inj.mp h2).symm
    split_ifs with h₁ h₂ h₃ h₄ <;> simp_all
  · intro h
    induction components with
    | nil => rfl
    | cons c t ih =>
      have hc := h c (List.mem_cons_self _ _)
      have ht := ih (fun d hd => h d (List.mem_cons_of_mem _ hd))
      simp only [update_component_weights, List.map_cons,
        if_neg hc.1, if_neg hc.2.1, if_neg hc.2.2.1, if_neg hc.2.2.2]
      simp only [update_component_weights] at ht
      rw [ht]

/-- Witness for C7: on the default configuration and a two-element list
with a Wing placeholder followed by a Camera payload, the first entry of
the updated list keeps its name and position and carries the wing
estimate as its `weight_kg`. -/
theorem update_component_weights_frame_witness :
    ∃ c₂ : Component ℝ,
      (update_component_weights defaultConfig
        [⟨"Wing", 0, 0.5, 0, 0.5, 0⟩,
         ⟨"Camera", 125, 0.2, 0, 0.1, 0.125⟩])[0]? = some c₂ ∧
      c₂.name = "Wing" ∧ c₂.x = 0.5 ∧
      c₂.weight_kg = calculate_wing_weight defaultConfig := by
  have h0 : ([⟨"Wing", 0, 0.5, 0, 0.5, 0⟩,
      ⟨"Camera", 125, 0.2, 0, 0.1, 0.125⟩] : List (Component ℝ))[0]? =
      some ⟨"Wing", 0, 0.5, 0, 0.5, 0⟩ := rfl
  have h2 : (update_component_weights defaultConfig
      [⟨"Wing", 0, 0.5, 0, 0.5, 0⟩,
       ⟨"Camera", 125, 0.2, 0, 0.1, 0.125⟩])[0]? =
      some ⟨"Wing", calculate_wing_weight defaultConfig * 1000, 0.5, 0, 0.5,
        calculate_wing_weight defaultConfig⟩ := by
    simp [update_component_weights]
  have hh := (update_component_weights_frame defaultConfig
    [⟨"Wing", 0, 0.5, 0, 0.5, 0⟩,
     ⟨"Camera", 125, 0.2, 0, 0.1, 0.125⟩]).2.1 0 _ _ h0 h2
  exact ⟨_, h2, hh.1.1, hh.1.2.1, (hh.2.1 rfl).2⟩

end UAV

namespace UAV

/-- Minimum of a list of rationals (0 for the empty list, which is only
used on non-empty lists). -/
def listMin : List ℚ → ℚ
  | [] => 0
  | [a] => a
  | a :: b :: l => min a (listMin (b :: l))

/-- Maximum of a list of rationals (0 for the empty list, which is only
used on non-empty lists). -/
def listMax : List ℚ → ℚ
  | [] => 0
  | [a] => a
  | a :: b :: l => max a (listMax (b :: l))

theorem listMin_le {l : List ℚ} {a : ℚ} (ha : a ∈ l) : listMin l ≤ a := by
  induction l with
  | nil => cases ha
  | cons x t ih =>
    cases t with
    | nil =>
      rcases List.mem_cons.mp ha with h | h
      · simp [listMin, h]
      · cases h
    | cons y s =>
      rcases List.mem_cons.mp ha with h | h
      · simp [listMin, h]
      · exact le_trans (min_le_right _ _) (ih h)

theorem le_listMax {l : List ℚ} {a : ℚ} (ha : a ∈ l) : a ≤ listMax l := by
  induction l with
  | nil => cases ha
  | cons x t ih =>
    cases t with
    | nil =>
      rcases List.mem_cons.mp ha with h | h
      · simp [listMax, h]
      · cases h
    | cons y s =>
      rcases List.mem_cons.mp ha with h | h
      · simp [listMax, h]
      · exact le_trans (ih h) (le_max_right _ _)

theorem mul_sum_le_weighted_sum (m : ℚ) (f : Component ℚ → ℚ)
    (cs : List (Component ℚ)) (hw : ∀ c ∈ cs, 0 ≤ c.weight_kg)
    (hm : ∀ c ∈ cs, m ≤ f c) :
    m * (cs.map (fun c => c.weight_kg)).sum ≤
      (cs.map (fun c => f c * c.weight_kg)).sum := by
  induction cs with
  | nil => simp
  | cons c t ih =>
    simp only [List.map_cons, List.sum_cons, mul_add]
    have h1 : m * c.weight_kg ≤ f c * c.weight_kg :=
      mul_le_mul_of_nonneg_right (hm c (List.mem_cons_self _ _))
        (hw c (List.mem_cons_self _ _))
    have h2 := ih (fun d hd => hw d (List.mem_cons_of_mem _ hd))
      (fun d hd => hm d (List.mem_cons_of_mem _ hd))
    linarith

theorem weighted_sum_le_mul_sum (M : ℚ) (f : Component ℚ → ℚ)
    (cs : List (Component ℚ)) (hw : ∀ c ∈ cs, 0 ≤ c.weight_kg)
    (hM : ∀ c ∈ cs, f c ≤ M) :
    (cs.map (fun c => f c * c.weight_kg)).sum ≤
      M * (cs.map (fun c => c.weight_kg)).sum := by
  induction cs with
  | nil => simp
  | cons c t ih =>
    simp only [List.map_cons, List.sum_cons, mul_add]
    have h1 : f c * c.weight_kg ≤ M * c.weight_kg :=
      mul_le_mul_of_nonneg_right (hM c (List.mem_cons_self _ _))
        (hw c (List.mem_cons_self _ _))
    have h2 := ih (fun d hd => hw d (List.mem_cons_of_mem _ hd))
      (fun d hd => hM d (List.mem_cons_of_mem _ hd))
    linarith

/-- C6: for a non-empty component list with non-negative weights and
positive total weight, `calculate_CG` succeeds and each CG axis lies in
the closed interval from the minimum to the maximum of the components'
values on that axis. -/
theorem calculate_CG_within_bounds (cs : List (Component ℚ)) (_hne : cs ≠ [])
    (hw : ∀ c ∈ cs, 0 ≤ c.weight_kg)
    (hpos : 0 < (cs.map (fun c => c.weight_kg)).sum) :
    ∃ x y z, calculate_CG cs =
      Except.ok ((cs.map (fun c => c.weight_kg)).sum, x, y, z) ∧
      listMin (cs.map (fun c => c.x)) ≤ x ∧ x ≤ listMax (cs.map (fun c => c.x)) ∧
      listMin (cs.map (fun c => c.y)) ≤ y ∧ y ≤ listMax (cs.map (fun c => c.y)) ∧
      listMin (cs.map (fun c => c.z)) ≤ z ∧ z ≤ listMax (cs.map (fun c => c.z)) := by
  refine ⟨(cs.map (fun c => c.x * c.weight_kg)).sum / (cs.map (fun c => c.weight_kg)).sum,
    (cs.map (fun c => c.y * c.weight_kg)).sum / (cs.map (fun c => c.weight_kg)).sum,
    (cs.map (fun c => c.z * c.weight_kg)).sum / (cs.map (fun c => c.weight_kg)).sum,
    by simp only [calculate_CG, if_neg hpos.ne'], ?_, ?_, ?_, ?_, ?_, ?_⟩
  · rw [le_div_iff₀ hpos]
    exact mul_sum_le_weighted_sum _ _ _ hw
      (fun c hc => listMin_le (List.mem_map_of_mem _ hc))
  · rw [div_le_iff₀ hpos]
    exact weighted_sum_le_mul_sum _ _ _ hw
      (fun c hc => le_listMax (List.mem_map_of_mem _ hc))
  · rw [le_div_iff₀ hpos]
    exact mul_sum_le_weighted_sum _ _ _ hw
      (fun c hc => listMin_le (List.mem_map_of_mem _ hc))
  · rw [div_le_iff₀ hpos]
    exact weighted_sum_le_mul_sum _ _ _ hw
      (fun c hc => le_listMax (List.mem_map_of_mem _ hc))
  · rw [le_div_iff₀ hpos]
    exact mul_sum_le_weighted_sum _ _ _ hw
      (fun c hc => listMin_le (List.mem_map_of_mem _ hc))
  · rw [div_le_iff₀ hpos]
    exact weighted_sum_le_mul_sum _ _ _ hw
      (fun c hc => le_listMax (List.mem_map_of_mem _ hc))

/-- Witness for C6 on the Battery/Camera list: the CG exists and each
axis lies between the componentwise minimum and maximum. -/
theorem calculate_CG_within_bounds_witness :
    ∃ x y z, calculate_CG [⟨"Battery", 559, 0.7, 0, 0.5, 0.559⟩,
        ⟨"Camera", 125, 0.2, 0, 0.1, 0.125⟩] =
      Except.ok (([⟨"Battery", 559, 0.7, 0, 0.5, 0.559⟩,
          ⟨"Camera", 125, 0.2, 0, 0.1, 0.125⟩].map
            (fun c : Component ℚ => c.weight_kg)).sum, x, y, z) ∧
      listMin ([⟨"Battery", 559, 0.7, 0, 0.5, 0.559⟩,
          ⟨"Camera", 125, 0.2, 0, 0.1, 0.125⟩].map
            (fun c : Component ℚ => c.x)) ≤ x ∧
      x ≤ listMax ([⟨"Battery", 559, 0.7, 0, 0.5, 0.559⟩,
          ⟨"Camera", 125, 0.2, 0, 0.1, 0.125⟩].map
            (fun c : Component ℚ => c.x)) ∧
      listMin ([⟨"Battery", 559, 0.7, 0, 0.5, 0.559⟩,
          ⟨"Camera", 125, 0.2, 0, 0.1, 0.125⟩].map
            (fun c : Component ℚ => c.y)) ≤ y ∧
      y ≤ listMax ([⟨"Battery", 559, 0.7, 0, 0.5, 0.559⟩,
          ⟨"Camera", 125, 0.2, 0, 0.1, 0.125⟩].map
            (fun c : Component ℚ => c.y)) ∧
      listMin ([⟨"Battery", 559, 0.7, 0, 0.5, 0.559⟩,
          ⟨"Camera", 125, 0.2, 0, 0.1, 0.125⟩].map
            (fun c : Component ℚ => c.z)) ≤ z ∧
      z ≤ listMax ([⟨"Battery", 559, 0.7, 0, 0.5, 0.559⟩,
          ⟨"Camera", 125, 0.2, 0, 0.1, 0.125⟩].map
            (fun c : Component ℚ => c.z)) :=
  calculate_CG_within_bounds _ (by simp) (by norm_num) (by norm_num)

/-- C8 counterexample: adding a component whose name is already present
does not fail and does not leave the list unchanged — the source appends
the duplicate silently. -/
theorem add_component_duplicate_counterexample :
    add_component [⟨"Camera", 125, 0.2, 0, 0.1, 0.125⟩] "Camera" 100 0.5 0 0 ≠
      [⟨"Camera", 125, 0.2, 0, 0.1, 0.125⟩] ∧
    (add_component [⟨"Camera", 125, 0.2, 0, 0.1, 0.125⟩]
      "Camera" 100 0.5 0 0).length = 2 := by
  constructor
  · intro h
    have hlen := congrArg List.length h
    simp [add_component] at hlen
  · rfl

/-- C8 (amended): `add_component` never fails; for every list and every
name — present in the list or not — it appends exactly one new record
with the given name, weight and position (and `weight_kg = weight/1000`),
leaving the existing records as a prefix. -/
theorem add_component_appends (cs : List (Component ℚ)) (n : String)
    (w x y z : ℚ) :
    (add_component cs n w x y z).length = cs.length + 1 ∧
    (add_component cs n w x y z).take cs.length = cs ∧
    (add_component cs n w x y z).getLast? = some ⟨n, w, x, y, z, w / 1000⟩ := by
  refine ⟨by simp [add_component], ?_, ?_⟩
  · simp [add_component, List.take_left]
  · simp [add_component]

/-- The invariant that `weight_kg` is `weight / 1000` for a component. -/
def kgConsistent {α : Type} [DivisionRing α] (c : Component α) : Prop :=
  c.weight_kg = c.weight / 1000

/-- C9: every operation that creates or mutates a component keeps
`weight_kg = weight / 1000`: the initial list satisfies it, `add_component`
preserves it, the edit loop body re-establishes it, and
`update_component_weights` preserves it. -/
theorem weight_kg_invariant :
    (∀ c ∈ init_components, kgConsistent c) ∧
    (∀ (cs : List (Component ℚ)) (n : String) (w x y z : ℚ),
      (∀ c ∈ cs, kgConsistent c) →
      ∀ c ∈ add_component cs n w x y z, kgConsistent c) ∧
    (∀ (comp : Component ℚ) (nx ny nz nw : ℚ),
      kgConsistent (adjust_component comp nx ny nz nw)) ∧
    (∀ (cfg : Config) (cs : List (Component ℝ)),
      (∀ c ∈ cs, kgConsistent c) →
      ∀ c ∈ update_component_weights cfg cs, kgConsistent c) := by
  refine ⟨?_, ?_, ?_, ?_⟩
  · intro c hc
    fin_cases hc <;> norm_num [kgConsistent]
  · intro cs n w x y z hcs c hc
    rcases List.mem_append.mp hc with h | h
    · exact hcs c h
    · rw [List.mem_singleton.mp h]
      rfl
  · intro comp nx ny nz nw
    rfl
  · intro cfg cs hcs c hc
    simp only [update_component_weights, List.mem_map] at hc
    obtain ⟨c₀, hc₀, rfl⟩ := hc
    have h1000 : (1000 : ℝ) ≠ 0 := by norm_num
    split_ifs <;>
      first
      | exact (mul_div_cancel_right₀ _ h1000).symm
      | exact hcs c₀ hc₀

/-- Witness for C9: the initial Camera record satisfies the invariant. -/
theorem weight_kg_invariant_witness :
    kgConsistent (⟨"Camera", 125, 0.2, 0, 0.1, 0.125⟩ : Component ℚ) :=
  weight_kg_invariant.1 _ (by simp [init_components])

/-- C10: appending a component with a fresh name and then removing the
first component with that name restores the original list. -/
theorem add_remove_roundtrip (cs : List (Component ℚ)) (n : String)
    (w x y z : ℚ) (h : ∀ c ∈ cs, c.name ≠ n) :
    remove_component (add_component cs n w x y z) n = cs := by
  induction cs with
  | nil => simp [remove_component, remove_at, add_component, List.findIdx_cons]
  | cons c t ih =>
    have hc : (c.name == n) = false :=
      beq_eq_false_iff_ne.mpr (h c (List.mem_cons_self _ _))
    have ht := ih (fun d hd => h d (List.mem_cons_of_mem _ hd))
    simp only [remove_component, remove_at, add_component, List.cons_append,
      List.findIdx_cons, hc, cond_false, List.eraseIdx_cons_succ] at ht ⊢
    rw [ht]

/-- Witness for C10: adding a Battery to a Camera-only list and then
removing the first record named Battery gives back the Camera-only list. -/
theorem add_remove_roundtrip_witness :
    remove_component (add_component [⟨"Camera", 125, 0.2, 0, 0.1, 0.125⟩]
      "Battery" 559 0.7 0 0.5) "Battery" =
      [⟨"Camera", 125, 0.2, 0, 0.1, 0.125⟩] :=
  add_remove_roundtrip _ _ _ _ _ _ (by simp)

end UAV
